import Mathlib

/-!
Shallow embedding of the ws90-prometheus daemon (package `ws90_prometheus`):
the rtl_433 stream reader's JSON filtering (`rtl_reader.py`), the blinker
broadcast of readings (`daemon.py` / `rtl_reader.py`), the local Prometheus
publisher with its per-device expiry timers (`publish_prom.py`), and the
VictoriaMetrics HTTP publisher (`publish_vm.py`).

Python values decoded from rtl_433's JSON output are modelled by `JValue`.
The WS90 decoder emits flat JSON objects whose values are scalars, so the
embedding models JSON to depth one: scalars, arrays of scalars and objects of
scalars.  Python `int` and `float` are modelled as `Int` and `ℚ` (the only
arithmetic the program performs is division by 1000, which is exact).
Fallible Python code (dict indexing, `float()` coercion, `requests` errors,
`raise_for_status`) is modelled with `Except PyErr`.
-/

namespace WS90

/-- Scalar Python/JSON values: `None`, `bool`, `int`, `float`, `str`. -/
inductive JScalar where
  | snull
  | sbool (b : Bool)
  | sint (n : Int)
  | sfloat (q : ℚ)
  | sstr (s : String)
deriving DecidableEq, Repr

/-- Python values decoded by `json.loads`, modelled to depth one: a scalar,
an array of scalars, or an object (dict) mapping string keys to scalars.
Readings produced by rtl_433 for the WS90 are flat objects of scalars. -/
inductive JValue where
  | scalar (s : JScalar)
  | jarr (elems : List JScalar)
  | jobj (fields : List (String × JScalar))
deriving DecidableEq, Repr

/-- Python exceptions that the embedded code can raise. -/
inductive PyErr where
  | keyError (key : String)
  | labelsKeyError
  | attributeError (attr : String)
  | typeError (msg : String)
  | valueError (msg : String)
  | httpError (status : Nat)
  | jsonDecodeError
deriving DecidableEq, Repr

/-- Python `==` on scalars: numbers (and `bool`, which is an `int` subtype in
Python) compare by numeric value across `int`/`float`/`bool`; other
cross-type comparisons are unequal. -/
def pyEq : JScalar → JScalar → Bool
  | .snull, .snull => true
  | .sbool a, .sbool b => a = b
  | .sbool a, .sint b => (if a then (1 : Int) else 0) = b
  | .sbool a, .sfloat b => ((if a then (1 : Int) else 0 : Int) : ℚ) = b
  | .sint a, .sbool b => a = (if b then (1 : Int) else 0)
  | .sint a, .sint b => a = b
  | .sint a, .sfloat b => ((a : ℚ) = b)
  | .sfloat a, .sbool b => a = ((if b then (1 : Int) else 0 : Int) : ℚ)
  | .sfloat a, .sint b => (a = (b : ℚ))
  | .sfloat a, .sfloat b => a = b
  | .sstr a, .sstr b => a = b
  | _, _ => false

/-- First-occurrence lookup in an association list; on lists with `Nodup`
keys (the image of a Python dict) this is exactly dict lookup. -/
def lookupA {β : Type} : List (String × β) → String → Option β
  | [], _ => none
  | (k, v) :: rest, key => if k = key then some v else lookupA rest key

/-- Python `d[key] = v` on a dict: replace the value if the key is present,
otherwise append the new binding. -/
def setA {α β : Type} [DecidableEq α] : List (α × β) → α → β → List (α × β)
  | [], key, v => [(key, v)]
  | (k, w) :: rest, key, v =>
      if k = key then (key, v) :: rest else (k, w) :: setA rest key v

/-- First-occurrence lookup keyed by an arbitrary decidable type (used for
per-device series maps, keyed by the device-id value). -/
def lookupK {α β : Type} [DecidableEq α] : List (α × β) → α → Option β
  | [], _ => none
  | (k, v) :: rest, key => if k = key then some v else lookupK rest key

/-- Python `del d[key]`: remove the binding, raising `KeyError` when the key
is absent (this is what `prometheus_client`'s `remove` does on a missing
label set). -/
def removeK {α β : Type} [DecidableEq α] : List (α × β) → α → Except PyErr (List (α × β))
  | [], _ => .error .labelsKeyError
  | (k, v) :: rest, key =>
      if k = key then .ok rest
      else do
        let rest' ← removeK rest key
        .ok ((k, v) :: rest')

/-- Sequential effectful map, the shape of every `for` loop in the Python
publishers: process the elements in order, stopping at the first
exception. -/
def mapE {α β : Type} (f : α → Except PyErr β) : List α → Except PyErr (List β)
  | [] => .ok []
  | a :: rest => do
      let b ← f a
      let bs ← mapE f rest
      .ok (b :: bs)

/-- Python `data[key]` on a decoded object: dict indexing raises
`KeyError(key)` when the key is absent. -/
def getItem (fields : List (String × JScalar)) (key : String) : Except PyErr JScalar :=
  match lookupA fields key with
  | some v => .ok v
  | none => .error (.keyError key)

/-- Python `data.get(key, None)`: only dicts have a `get` attribute, so a
non-object value raises `AttributeError`. -/
def pyGet (data : JValue) (key : String) : Except PyErr (Option JScalar) :=
  match data with
  | .jobj fields => .ok (lookupA fields key)
  | _ => .error (.attributeError "get")

/-- Python `key in data` for a decoded object (dict key membership). -/
def pyContains (data : JValue) (key : String) : Except PyErr Bool :=
  match data with
  | .jobj fields => .ok (fields.any (fun p => p.1 = key))
  | .jarr elems => .ok (elems.any (fun v => pyEq v (.sstr key)))
  | .scalar (.sstr s) => .ok ((s.splitOn key).length > 1)
  | .scalar _ => .error (.typeError "argument of type is not iterable")

/-- Python true division by 1000 (`lambda x: x / 1000`), used by the
`battery_mV` and `rain_mm` transforms in `daemon.FIELDS`: exact on `int`,
`float` and `bool` (a Python `bool` is an `int`), a `TypeError` otherwise. -/
def div_by_1000 : JScalar → Except PyErr JScalar
  | .sint n => .ok (.sfloat ((n : ℚ) / 1000))
  | .sfloat q => .ok (.sfloat (q / 1000))
  | .sbool b => .ok (.sfloat (((if b then (1 : Int) else 0 : Int) : ℚ) / 1000))
  | _ => .error (.typeError "unsupported operand type for division")

/-- Python `float(v)` as used by `prometheus_client.Gauge.set`: numbers and
bools coerce; other values raise.  (Python's `float` also parses numeric
strings; the field table only carries numeric sensor values, so string
parsing is not modelled.) -/
def pyFloat : JScalar → Except PyErr ℚ
  | .sint n => .ok (n : ℚ)
  | .sfloat q => .ok q
  | .sbool b => .ok ((if b then (1 : Int) else 0 : Int) : ℚ)
  | _ => .error (.valueError "could not convert value to float")

/-- One entry of `daemon.FIELDS`: source JSON key, Prometheus metric name,
description, optional value transform. -/
structure Field where
  json_key : String
  name : String
  desc : String
  postprocess : Option (JScalar → Except PyErr JScalar)

/-- One entry of `daemon.FIELDS_MODEL`: info-metric name, description, and
the list of reading keys published as the info payload. -/
structure ModelField where
  name : String
  desc : String
  keys : List String

/-- The `FIELDS` table of `daemon.py`, verbatim. -/
def FIELDS : List Field := [
  ⟨"temperature_C", "ws90_temperature_celsius", "Temperature in Celsius", none⟩,
  ⟨"humidity", "ws90_humidity_ratio", "Humidity in percent", none⟩,
  ⟨"battery_ok", "ws90_battery_ratio", "Battery percent", none⟩,
  ⟨"battery_mV", "ws90_battery_volts", "Battery voltage", some div_by_1000⟩,
  ⟨"supercap_V", "ws90_supercap_volts", "Supercap voltage", none⟩,
  ⟨"wind_dir_deg", "ws90_wind_dir_degrees", "Wind direction in degrees", none⟩,
  ⟨"wind_avg_m_s", "ws90_wind_avg_speed", "Wind speed in m/s", none⟩,
  ⟨"wind_max_m_s", "ws90_wind_gust_speed", "Wind gust speed in m/s", none⟩,
  ⟨"uvi", "ws90_uvi", "UV index", none⟩,
  ⟨"light_lux", "ws90_light_lux", "Light in lux", none⟩,
  ⟨"rain_mm", "ws90_rain_m", "Total rain", some div_by_1000⟩,
  ⟨"rain_start", "ws90_rain_start", "Rain start info", none⟩]

/-- The `FIELDS_MODEL` table of `daemon.py`, verbatim. -/
def FIELDS_MODEL : List ModelField := [
  ⟨"ws90_model", "Model information", ["firmware", "model"]⟩]

/-- A `prometheus_client.Gauge` registered with label `id`: its name,
description, and the per-device series (label value, i.e. the device id from
the reading, mapped to the gauge value). -/
structure Gauge where
  name : String
  desc : String
  series : List (JScalar × ℚ)
deriving DecidableEq, Repr

/-- A `prometheus_client.Info` registered with label `id`: name, description
and per-device info payload. -/
structure InfoMetric where
  name : String
  desc : String
  series : List (JScalar × List (String × JScalar))
deriving DecidableEq, Repr

/-- State of a `PrometheusPublisher` (`publish_prom.py`): the registered
gauges keyed by source JSON key (`self.metrics`), the transform dict
(`self.postprocess`), the info metrics (`self.model_info`) and their key
lists (`self.model_keys`), the clear interval, and the per-device
`ResettableTimer`s.  `timers` holds the device ids that own a
`ResettableTimer` object; `armed` holds those whose timer is pending
(started and neither fired nor cancelled).  `cleared_count` counts the
invocations of `clear_metrics`, making "clear_metrics is never invoked"
stateable. -/
structure PromPublisher where
  clear_interval : Nat
  metrics : List (String × Gauge)
  postprocess : List (String × (JScalar → Except PyErr JScalar))
  model_info : List (String × InfoMetric)
  model_keys : List (String × List String)
  timers : List JScalar
  armed : List JScalar
  cleared_count : Nat

/-- The `PrometheusPublisher.__init__` constructor: one gauge per field
descriptor, the transform dict from the descriptors that declare one, one
info metric per model descriptor, no timers. -/
def promInit (clear_interval : Nat) (metrics_data : List Field)
    (model_data : List ModelField) : PromPublisher :=
  { clear_interval := clear_interval
    metrics := metrics_data.map (fun f => (f.json_key, ⟨f.name, f.desc, []⟩))
    postprocess := metrics_data.filterMap
      (fun f => f.postprocess.map (fun pp => (f.json_key, pp)))
    model_info := model_data.map (fun m => (m.name, ⟨m.name, m.desc, []⟩))
    model_keys := model_data.map (fun m => (m.name, m.keys))
    timers := []
    armed := []
    cleared_count := 0 }

/-- The `PrometheusPublisher._postprocess` helper: apply the declared
transform to `data[key]` if one exists, else return `data[key]` raw. -/
def ppApply (pp : List (String × (JScalar → Except PyErr JScalar)))
    (fields : List (String × JScalar)) (key : String) : Except PyErr JScalar :=
  match lookupA pp key with
  | some f => do f (← getItem fields key)
  | none => getItem fields key

/-- One iteration of the gauge loop in `PrometheusPublisher.data_callback`:
`v.labels(device_id).set(self._postprocess(data, k))`. -/
def updateGauge (pp : List (String × (JScalar → Except PyErr JScalar)))
    (fields : List (String × JScalar)) (device_id : JScalar)
    (p : String × Gauge) : Except PyErr (String × Gauge) := do
  let raw ← ppApply pp fields p.1
  let q ← pyFloat raw
  .ok (p.1, { p.2 with series := setA p.2.series device_id q })

/-- One iteration of the info loop in `PrometheusPublisher.data_callback`:
`model_info.labels(device_id).info({k: data[k] for k in self.model_keys[k]})`. -/
def updateInfo (model_keys : List (String × List String))
    (fields : List (String × JScalar)) (device_id : JScalar)
    (p : String × InfoMetric) : Except PyErr (String × InfoMetric) := do
  let keys ← (match lookupA model_keys p.1 with
    | some ks => Except.ok ks
    | none => Except.error (.keyError p.1))
  let payload ← mapE (fun k => do
    let v ← getItem fields k
    Except.ok (k, v)) keys
  .ok (p.1, { p.2 with series := setA p.2.series device_id payload })

/-- The `PrometheusPublisher.set_timer` method: a no-op when the clear
interval is 0; otherwise create this device's `ResettableTimer` on first
sight and (re)start it, which cancels any pending deadline and arms a fresh
one. -/
def set_timer (pub : PromPublisher) (device_id : JScalar) : PromPublisher :=
  if pub.clear_interval = 0 then pub
  else
    { pub with
      timers := if device_id ∈ pub.timers then pub.timers else pub.timers ++ [device_id]
      armed := if device_id ∈ pub.armed then pub.armed else pub.armed ++ [device_id] }

/-- The `PrometheusPublisher.data_callback` method: read `data["id"]`, set
every info metric's series for that device, set every gauge's series for
that device to the transformed value, then arm the expiry timer (reading
`data["model"]` and `data["firmware"]` for the timer arguments).  Any
`KeyError`/`TypeError`/`ValueError` on the way escapes (the method has no
handler); the embedding returns the error without the partial mutations,
which no claim observes. -/
def promDataCallback (pub : PromPublisher) (data : JValue) :
    Except PyErr PromPublisher := do
  let fields ← (match data with
    | .jobj fs => Except.ok fs
    | _ => Except.error (.typeError "value is not subscriptable"))
  let device_id ← getItem fields "id"
  let infos ← mapE (updateInfo pub.model_keys fields device_id) pub.model_info
  let gauges ← mapE (updateGauge pub.postprocess fields device_id) pub.metrics
  let _ ← getItem fields "model"
  let _ ← getItem fields "firmware"
  .ok (set_timer { pub with model_info := infos, metrics := gauges } device_id)

/-- The `PrometheusPublisher.clear_metrics` method: remove this device's
series from every gauge (`m.remove(device_id)`, a `KeyError` when absent)
and from every info metric, counting the invocation. -/
def clear_metrics (pub : PromPublisher) (device_id : JScalar) :
    Except PyErr PromPublisher := do
  let gauges ← mapE (fun p => do
    let s ← removeK p.2.series device_id
    Except.ok (p.1, { p.2 with series := s })) pub.metrics
  let infos ← mapE (fun p => do
    let s ← removeK p.2.series device_id
    Except.ok (p.1, { p.2 with series := s })) pub.model_info
  .ok { pub with
        metrics := gauges
        model_info := infos
        cleared_count := pub.cleared_count + 1 }

/-- Events observable by a `PrometheusPublisher`: a reading delivered via
the broadcaster, or the wall-clock expiry of a device's armed timer.  A
`timer_fires` event for a device with no pending timer is impossible and
leaves the state unchanged; a firing timer is disarmed and runs
`clear_metrics` with the device id it was armed with. -/
inductive Event where
  | reading (data : JValue)
  | timer_fires (device : JScalar)

/-- One event step of the publisher. -/
def promStep (pub : PromPublisher) : Event → Except PyErr PromPublisher
  | .reading data => promDataCallback pub data
  | .timer_fires dev =>
      if dev ∈ pub.armed then
        clear_metrics { pub with armed := pub.armed.erase dev } dev
      else .ok pub

/-- An arbitrary interleaving of readings and timer expiries. -/
def runEvents : PromPublisher → List Event → Except PyErr PromPublisher
  | pub, [] => .ok pub
  | pub, e :: rest => do
      let pub' ← promStep pub e
      runEvents pub' rest

/-- Python `format(v, "x")`, as evaluated inside the f-string
`f"(0x{data['id']:x})"` of `WS90Reader.process_data`'s ignore branch: hex
formatting is defined for `int` (and `bool`, an `int` subtype) only; a
`float` or `str` raises `ValueError`, `None` raises `TypeError`. -/
def fmtHex : JScalar → Except PyErr String
  | .sint n =>
      .ok ((if n < 0 then "-" else "") ++ String.mk (Nat.toDigits 16 n.natAbs))
  | .sbool b => .ok (if b then "1" else "0")
  | .sfloat _ => .error (.valueError "Unknown format code x for object of type float")
  | .sstr _ => .error (.valueError "Unknown format code x for object of type str")
  | .snull => .error (.typeError "unsupported format string passed to NoneType")

/-- Python `device_id not in self.device_ids` membership test, with the
configured allow-list of parsed integer ids and Python `==` semantics. -/
def inAllowList (device_ids : List Int) (v : JScalar) : Bool :=
  device_ids.any (fun n => pyEq v (.sint n))

/-- The `WS90Reader.process_data` method.  Returns `ok true` when the
reading was broadcast (`self.signal.send(data)` reached), `ok false` when
the method returned early (wrong/missing model, missing id, or id not in a
non-empty allow-list), and an error when a Python exception escapes (e.g.
calling `.get` on a non-dict value, or hex-formatting a non-int id in the
ignore branch's debug message). -/
def process_data (device_ids : List Int) (data : JValue) : Except PyErr Bool := do
  let m ← pyGet data "model"
  if pyEq (m.getD .snull) (.sstr "Fineoffset-WS90") = false then .ok false
  else do
    let hasId ← pyContains data "id"
    if hasId = false then .ok false
    else do
      let fields ← (match data with
        | .jobj fs => Except.ok fs
        | _ => Except.error (.typeError "value is not subscriptable"))
      let device_id ← getItem fields "id"
      if device_ids.length > 0 ∧ inAllowList device_ids device_id = false then do
        let _ ← fmtHex device_id
        .ok false
      else .ok true

/-- The `WS90Reader.read_stdout` method, over the outcome of
`json.loads(line)` (which raises only `json.JSONDecodeError`): a decode
failure is caught, logged and discarded (`ok none`); on a decoded value the
result of `process_data` is returned, and any exception it raises escapes —
the `except` clause catches `JSONDecodeError` alone. -/
def read_stdout (device_ids : List Int) (decoded : Except PyErr JValue) :
    Except PyErr (Option Bool) :=
  match decoded with
  | .error _ => .ok none
  | .ok data => do
      let sent ← process_data device_ids data
      .ok (some sent)

/-- The `blinker` broadcaster as wired in `daemon.py`
(`self.sig.connect(...)`; `self.sig.send(data)` in
`WS90Reader.process_data`): `Signal.send` invokes the connected receivers
synchronously in connection order inside a list comprehension, so a
receiver's exception propagates out of `send` immediately.  `sendFrom`
returns the 0-based indices of the receivers that were invoked, paired with
the escaping exception if one was raised. -/
def sendFrom (receivers : List (JValue → Except PyErr JValue)) (i : Nat)
    (data : JValue) : List Nat × Option PyErr :=
  match receivers with
  | [] => ([], none)
  | r :: rest =>
      match r data with
      | .ok _ =>
          let (called, e) := sendFrom rest (i + 1) data
          (i :: called, e)
      | .error e => ([i], some e)

/-- Entry point of the broadcast: `Signal.send` over the receiver list. -/
def blinker_send (receivers : List (JValue → Except PyErr JValue))
    (data : JValue) : List Nat × Option PyErr :=
  sendFrom receivers 0 data

/-- One HTTP POST performed by `VictoriaMetricsPublisher._post`: the
fixed import path under the base URL, the `format` query parameter (the
column descriptors, comma-joined), the `extra_label` device id, and the
CSV body cells (comma-joined, in Python via `str`; the embedding keeps
the cells structured). -/
structure VMPost where
  path : String
  format : List String
  device_id : JScalar
  body : List JScalar
deriving DecidableEq, Repr

/-- State of a `VictoriaMetricsPublisher` (`publish_vm.py`). -/
structure VMPublisher where
  vmbaseurl : String
  metrics_data : List Field
  model_data : List ModelField

/-- The `VictoriaMetricsPublisher._construct_metrics` method, verbatim
including its `break`: the loop over `self.metrics_data` appends the first
descriptor's column and transformed value and then breaks, so the payload
carries the timestamp and at most one metric. -/
def construct_metrics (metrics_data : List Field)
    (fields : List (String × JScalar)) (ts : Int) :
    Except PyErr (List JScalar × List String) :=
  match metrics_data with
  | [] => .ok ([.sint ts], ["1:time:unix_s"])
  | f :: _ => do
      let value ← (match f.postprocess with
        | none => getItem fields f.json_key
        | some pp => do pp (← getItem fields f.json_key))
      .ok ([.sint ts, value], ["1:time:unix_s", "2:metric:" ++ f.name])

/-- The `VictoriaMetricsPublisher._construct_modelinfo` method: timestamp
column, a constant-1 marker metric named `<name>_info`, then one label
column per declared key (the f-string interpolates `name`, not the loop's
`key`) holding `data[key]`. -/
def construct_modelinfo (fields : List (String × JScalar)) (ts : Int)
    (name : String) (keys : List String) :
    Except PyErr (List JScalar × List String) := do
  let vals ← mapE (getItem fields) keys
  .ok (.sint ts :: .sint 1 :: vals,
       "1:time:unix_s" :: ("2:metric:" ++ name ++ "_info") ::
         (List.range keys.length).map
           (fun i => toString (i + 3) ++ ":label:" ++ name))

/-- The `requests` response status for a POST, supplied by the environment
(the remote VictoriaMetrics backend or the network). -/
def Responder : Type := VMPost → Nat

/-- The `VictoriaMetricsPublisher._post` method: perform the POST and call
`resp.raise_for_status()`, which raises `requests.HTTPError` exactly when
the status code is in `[400, 600)`. -/
def vmPost (responder : Responder) (device_id : JScalar)
    (payload : List JScalar × List String) : VMPost × Option PyErr :=
  let p : VMPost := ⟨"/api/v1/import/csv", payload.2, device_id, payload.1⟩
  let st := responder p
  (p, if 400 ≤ st ∧ st < 600 then some (.httpError st) else none)

/-- The model-info loop of `VictoriaMetricsPublisher.data_callback`: one
`_post` per entry of `self.model_data`, stopping at the first exception
(escaping construction error or `raise_for_status`). -/
def vmModelLoop (responder : Responder) (fields : List (String × JScalar))
    (device_id : JScalar) (ts : Int) :
    List ModelField → List VMPost × Option PyErr
  | [] => ([], none)
  | m :: rest =>
      match construct_modelinfo fields ts m.name m.keys with
      | .error e => ([], some e)
      | .ok payload =>
          match vmPost responder device_id payload with
          | (p, some e) => ([p], some e)
          | (p, none) =>
              let (ps, e) := vmModelLoop responder fields device_id ts rest
              (p :: ps, e)

/-- The `VictoriaMetricsPublisher.data_callback` method: read `data["id"]`
and parse `data["time"]` with `strptime` (supplied abstractly: it accepts
only a `str` and yields the Unix timestamp, or raises), post the metrics
payload, then post one model-info payload per model descriptor.  The result
is the list of POSTs actually performed, paired with the exception that
escaped the callback, if any — the method has no exception handler. -/
def vmDataCallback (responder : Responder) (strptime : String → Except PyErr Int)
    (pub : VMPublisher) (data : JValue) : List VMPost × Option PyErr :=
  match data with
  | .jobj fields =>
      (match getItem fields "id" with
       | .error e => ([], some e)
       | .ok device_id =>
         match getItem fields "time" with
         | .error e => ([], some e)
         | .ok tv =>
           match (match tv with
                  | .sstr s => strptime s
                  | _ => .error (.typeError "strptime argument must be str")) with
           | .error e => ([], some e)
           | .ok ts =>
             match construct_metrics pub.metrics_data fields ts with
             | .error e => ([], some e)
             | .ok payload =>
               match vmPost responder device_id payload with
               | (p, some e) => ([p], some e)
               | (p, none) =>
                   let (ps, e) := vmModelLoop responder fields device_id ts pub.model_data
                   (p :: ps, e))
  | _ => ([], some (.typeError "value is not subscriptable"))

/-- A full WS90 reading as decoded from rtl_433's stdout (the shape emitted
by the device decoder and by the repository's fake generator): every
`FIELDS` source key plus `model`, `id`, `firmware` and `time`. -/
def sampleFields : List (String × JScalar) := [
  ("time", .sstr "2024-01-01 00:00:00"),
  ("model", .sstr "Fineoffset-WS90"),
  ("id", .sint 100),
  ("battery_mV", .sint 2800),
  ("battery_ok", .sfloat (9 / 10)),
  ("temperature_C", .sfloat (43 / 2)),
  ("humidity", .sint 55),
  ("wind_dir_deg", .sint 180),
  ("wind_avg_m_s", .sfloat 3),
  ("wind_max_m_s", .sfloat 5),
  ("uvi", .sint 4),
  ("light_lux", .sfloat 120),
  ("rain_mm", .sfloat 30),
  ("rain_start", .sint 1),
  ("supercap_V", .sfloat (3 / 2)),
  ("firmware", .sstr "126")]

/-- The sample reading as a decoded JSON value. -/
def sampleReading : JValue := .jobj sampleFields

/-- A one-gauge field table (the `temperature_C` descriptor of `FIELDS`),
used to instantiate the general publisher theorems on small inputs. -/
def FIELDS1 : List Field := [
  ⟨"temperature_C", "ws90_temperature_celsius", "Temperature in Celsius", none⟩]

/-- A minimal accepted reading carrying the keys `FIELDS1` and
`FIELDS_MODEL` require. -/
def miniReading : JValue := .jobj [
  ("model", .sstr "Fineoffset-WS90"),
  ("id", .sint 100),
  ("firmware", .sstr "126"),
  ("temperature_C", .sint 21),
  ("time", .sstr "2024-01-01 00:00:00")]

section AssocLemmas

theorem except_bind_ok {ε σ τ : Type} (a : σ) (f : σ → Except ε τ) :
    (Except.ok a >>= f) = f a := rfl

theorem except_bind_error {ε σ τ : Type} (e : ε) (f : σ → Except ε τ) :
    ((Except.error e : Except ε σ) >>= f) = Except.error e := rfl


variable {α β γ : Type} [DecidableEq α]

theorem lookupK_setA_self (l : List (α × β)) (k : α) (v : β) :
    lookupK (setA l k v) k = some v := by
  induction l with
  | nil => simp [setA, lookupK]
  | cons p rest ih =>
      obtain ⟨a, b⟩ := p
      by_cases h : a = k
      · simp [setA, h, lookupK]
      · simp [setA, h, lookupK, ih]

theorem lookupK_setA_ne (l : List (α × β)) (k k' : α) (v : β) (h : k' ≠ k) :
    lookupK (setA l k v) k' = lookupK l k' := by
  have hkk : ¬ (k = k') := fun hh => h hh.symm
  induction l with
  | nil => simp [setA, lookupK, hkk]
  | cons p rest ih =>
      obtain ⟨a, b⟩ := p
      by_cases ha : a = k
      · subst ha
        simp [setA, lookupK, hkk]
      · rw [setA, if_neg ha, lookupK, lookupK]
        by_cases ha' : a = k'
        · rw [if_pos ha', if_pos ha']
        · rw [if_neg ha', if_neg ha', ih]

theorem setA_setA_same (l : List (α × β)) (k : α) (v : β) :
    setA (setA l k v) k v = setA l k v := by
  induction l with
  | nil => simp [setA]
  | cons p rest ih =>
      obtain ⟨a, b⟩ := p
      by_cases h : a = k
      · simp [setA, h]
      · simp [setA, h, ih]

theorem keys_setA (l : List (α × β)) (k : α) (v : β) :
    (setA l k v).map Prod.fst =
      if k ∈ l.map Prod.fst then l.map Prod.fst else l.map Prod.fst ++ [k] := by
  induction l with
  | nil => simp [setA]
  | cons p rest ih =>
      obtain ⟨a, b⟩ := p
      by_cases ha : a = k
      · subst ha
        simp [setA]
      · rw [setA, if_neg ha]
        simp only [List.map_cons]
        rw [ih]
        by_cases hk : k ∈ rest.map Prod.fst
        · simp [hk, Ne.symm ha]
        · simp [hk, Ne.symm ha]

theorem nodup_keys_setA (l : List (α × β)) (k : α) (v : β)
    (h : (l.map Prod.fst).Nodup) : ((setA l k v).map Prod.fst).Nodup := by
  rw [keys_setA]
  by_cases hk : k ∈ l.map Prod.fst
  · simpa [hk] using h
  · simp [hk, List.nodup_append, h]

theorem lookupK_eq_none_iff (l : List (α × β)) (k : α) :
    lookupK l k = none ↔ k ∉ l.map Prod.fst := by
  induction l with
  | nil => simp [lookupK]
  | cons p rest ih =>
      obtain ⟨a, b⟩ := p
      by_cases h : a = k
      · subst h
        simp [lookupK]
      · rw [lookupK, if_neg h, ih]
        simp [Ne.symm h]

theorem removeK_ok_lookup_ne (l l' : List (α × β)) (k k' : α)
    (h : removeK l k = .ok l') (hne : k' ≠ k) : lookupK l' k' = lookupK l k' := by
  induction l generalizing l' with
  | nil => simp [removeK] at h
  | cons p rest ih =>
      obtain ⟨a, b⟩ := p
      by_cases ha : a = k
      · rw [removeK, if_pos ha] at h
        cases h
        subst ha
        have hak : ¬ (a = k') := fun hh => hne hh.symm
        simp [lookupK, hak]
      · rw [removeK, if_neg ha] at h
        cases hrest : removeK rest k with
        | error e =>
            rw [hrest, except_bind_error] at h
            exact absurd h (by simp)
        | ok rest' =>
            rw [hrest, except_bind_ok] at h
            cases h
            rw [lookupK, lookupK]
            by_cases ha' : a = k'
            · rw [if_pos ha', if_pos ha']
            · rw [if_neg ha', if_neg ha', ih rest' hrest]

theorem removeK_ok_lookup_self (l l' : List (α × β)) (k : α)
    (hnd : (l.map Prod.fst).Nodup) (h : removeK l k = .ok l') :
    lookupK l' k = none := by
  induction l generalizing l' with
  | nil => simp [removeK] at h
  | cons p rest ih =>
      obtain ⟨a, b⟩ := p
      rw [List.map_cons, List.nodup_cons] at hnd
      by_cases ha : a = k
      · rw [removeK, if_pos ha] at h
        cases h
        subst ha
        exact (lookupK_eq_none_iff _ _).mpr hnd.1
      · rw [removeK, if_neg ha] at h
        cases hrest : removeK rest k with
        | error e =>
            rw [hrest, except_bind_error] at h
            exact absurd h (by simp)
        | ok rest' =>
            rw [hrest, except_bind_ok] at h
            cases h
            rw [lookupK, if_neg ha]
            exact ih rest' hnd.2 hrest

end AssocLemmas

section MapELemmas

variable {α β : Type}

theorem mapE_ok_forall2 {f : α → Except PyErr β} :
    ∀ {l : List α} {l' : List β}, mapE f l = .ok l' →
      List.Forall₂ (fun a b => f a = .ok b) l l' := by
  intro l
  induction l with
  | nil =>
      intro l' h
      rw [mapE] at h
      cases h
      exact .nil
  | cons a rest ih =>
      intro l' h
      rw [mapE] at h
      cases hfa : f a with
      | error e => rw [hfa, except_bind_error] at h; exact absurd h (by simp)
      | ok b =>
          rw [hfa, except_bind_ok] at h
          cases hrest : mapE f rest with
          | error e => rw [hrest, except_bind_error] at h; exact absurd h (by simp)
          | ok bs =>
              rw [hrest, except_bind_ok] at h
              cases h
              exact .cons hfa (ih hrest)

theorem forall2_mapE_ok {f : α → Except PyErr β} :
    ∀ {l : List α} {l' : List β},
      List.Forall₂ (fun a b => f a = .ok b) l l' → mapE f l = .ok l' := by
  intro l l' h
  induction h with
  | nil => rfl
  | cons hab _ ih => rw [mapE, hab, except_bind_ok, ih, except_bind_ok]

theorem mapE_idem {f : α → Except PyErr α}
    (hf : ∀ a b, f a = .ok b → f b = .ok b) :
    ∀ {l l' : List α}, mapE f l = .ok l' → mapE f l' = .ok l' := by
  intro l l' h
  have h2 := mapE_ok_forall2 h
  clear h
  apply forall2_mapE_ok
  induction h2 with
  | nil => exact .nil
  | cons hab _ ih => exact .cons (hf _ _ hab) ih

theorem forall2_fst_eq {β γ : Type} {R : β → γ → Prop}
    {l : List (String × β)} {l' : List (String × γ)}
    (h : List.Forall₂ (fun p q => p.1 = q.1 ∧ R p.2 q.2) l l') :
    l'.map Prod.fst = l.map Prod.fst := by
  induction h with
  | nil => rfl
  | cons hab _ ih => simp [ih, hab.1]

theorem lookupA_forall2 {β γ : Type} (R : β → γ → Prop) :
    ∀ {l : List (String × β)} {l' : List (String × γ)},
      List.Forall₂ (fun p q => p.1 = q.1 ∧ R p.2 q.2) l l' →
      ∀ k, (lookupA l k = none → lookupA l' k = none) ∧
           (∀ g, lookupA l k = some g → ∃ g', lookupA l' k = some g' ∧ R g g') := by
  intro l l' h
  induction h with
  | nil => intro k; simp [lookupA]
  | cons hab htail ih =>
      intro k
      rename_i p q _ _
      obtain ⟨hfst, hR⟩ := hab
      constructor
      · intro hnone
        rw [lookupA] at hnone ⊢
        by_cases hk : p.1 = k
        · simp [hk] at hnone
        · rw [if_neg hk] at hnone
          rw [if_neg (hfst ▸ hk)]
          exact (ih k).1 hnone
      · intro g hg
        rw [lookupA] at hg ⊢
        by_cases hk : p.1 = k
        · rw [if_pos hk] at hg
          cases hg
          rw [if_pos (hfst ▸ hk)]
          exact ⟨q.2, rfl, hR⟩
        · rw [if_neg hk] at hg
          rw [if_neg (hfst ▸ hk)]
          exact (ih k).2 g hg

end MapELemmas

section PublisherLemmas

theorem getItem_ok_iff (fields : List (String × JScalar)) (k : String) (v : JScalar) :
    getItem fields k = .ok v ↔ lookupA fields k = some v := by
  unfold getItem
  cases lookupA fields k <;> simp

theorem getItem_error_elim (fields : List (String × JScalar)) (k : String) (e : PyErr)
    (h : getItem fields k = .error e) : lookupA fields k = none ∧ e = .keyError k := by
  unfold getItem at h
  cases hl : lookupA fields k <;> rw [hl] at h <;> simp_all

theorem set_timer_proj (p : PromPublisher) (d : JScalar) :
    (set_timer p d).clear_interval = p.clear_interval ∧
    (set_timer p d).metrics = p.metrics ∧
    (set_timer p d).postprocess = p.postprocess ∧
    (set_timer p d).model_info = p.model_info ∧
    (set_timer p d).model_keys = p.model_keys ∧
    (set_timer p d).cleared_count = p.cleared_count := by
  unfold set_timer
  split
  · exact ⟨rfl, rfl, rfl, rfl, rfl, rfl⟩
  · exact ⟨rfl, rfl, rfl, rfl, rfl, rfl⟩

theorem set_timer_zero (p : PromPublisher) (d : JScalar) (h : p.clear_interval = 0) :
    set_timer p d = p := by
  unfold set_timer
  rw [if_pos h]

theorem updateGauge_ok_spec (pp : List (String × (JScalar → Except PyErr JScalar)))
    (fields : List (String × JScalar)) (dev : JScalar) (p q : String × Gauge)
    (h : updateGauge pp fields dev p = .ok q) :
    q.1 = p.1 ∧ q.2.name = p.2.name ∧ q.2.desc = p.2.desc ∧
    ∃ val, q.2.series = setA p.2.series dev val := by
  unfold updateGauge at h
  cases hpp : ppApply pp fields p.1 with
  | error e => rw [hpp, except_bind_error] at h; exact absurd h (by simp)
  | ok raw =>
      rw [hpp, except_bind_ok] at h
      cases hq : pyFloat raw with
      | error e => rw [hq, except_bind_error] at h; exact absurd h (by simp)
      | ok val =>
          rw [hq, except_bind_ok] at h
          cases h
          exact ⟨rfl, rfl, rfl, val, rfl⟩

theorem updateGauge_idem (pp : List (String × (JScalar → Except PyErr JScalar)))
    (fields : List (String × JScalar)) (dev : JScalar) (p q : String × Gauge)
    (h : updateGauge pp fields dev p = .ok q) :
    updateGauge pp fields dev q = .ok q := by
  have hfst : q.1 = p.1 := (updateGauge_ok_spec pp fields dev p q h).1
  unfold updateGauge at h ⊢
  rw [hfst]
  cases hpp : ppApply pp fields p.1 with
  | error e => rw [hpp, except_bind_error] at h; exact absurd h (by simp)
  | ok raw =>
      rw [hpp, except_bind_ok] at h
      rw [except_bind_ok]
      cases hq : pyFloat raw with
      | error e => rw [hq, except_bind_error] at h; exact absurd h (by simp)
      | ok val =>
          rw [hq, except_bind_ok] at h
          rw [except_bind_ok]
          cases h
          simp [setA_setA_same]

theorem updateInfo_ok_spec (mk : List (String × List String))
    (fields : List (String × JScalar)) (dev : JScalar) (p q : String × InfoMetric)
    (h : updateInfo mk fields dev p = .ok q) :
    q.1 = p.1 ∧ q.2.name = p.2.name ∧ q.2.desc = p.2.desc ∧
    ∃ val, q.2.series = setA p.2.series dev val := by
  unfold updateInfo at h
  cases hk : lookupA mk p.1 with
  | none => rw [hk, except_bind_error] at h; exact absurd h (by simp)
  | some keys =>
      rw [hk, except_bind_ok] at h
      cases hm : mapE (fun k => do
          let v ← getItem fields k
          Except.ok (k, v)) keys with
      | error e => rw [hm, except_bind_error] at h; exact absurd h (by simp)
      | ok payload =>
          rw [hm, except_bind_ok] at h
          cases h
          exact ⟨rfl, rfl, rfl, payload, rfl⟩

theorem updateInfo_idem (mk : List (String × List String))
    (fields : List (String × JScalar)) (dev : JScalar) (p q : String × InfoMetric)
    (h : updateInfo mk fields dev p = .ok q) :
    updateInfo mk fields dev q = .ok q := by
  have hfst : q.1 = p.1 := (updateInfo_ok_spec mk fields dev p q h).1
  unfold updateInfo at h ⊢
  rw [hfst]
  cases hk : lookupA mk p.1 with
  | none => rw [hk, except_bind_error] at h; exact absurd h (by simp)
  | some keys =>
      rw [hk, except_bind_ok] at h
      rw [except_bind_ok]
      cases hm : mapE (fun k => do
          let v ← getItem fields k
          Except.ok (k, v)) keys with
      | error e => rw [hm, except_bind_error] at h; exact absurd h (by simp)
      | ok payload =>
          rw [hm, except_bind_ok] at h
          rw [except_bind_ok]
          cases h
          simp [setA_setA_same]

theorem promDataCallback_ok_elim (pub pub' : PromPublisher) (data : JValue)
    (h : promDataCallback pub data = .ok pub') :
    ∃ fields device_id infos gauges,
      data = .jobj fields ∧
      lookupA fields "id" = some device_id ∧
      mapE (updateInfo pub.model_keys fields device_id) pub.model_info = .ok infos ∧
      mapE (updateGauge pub.postprocess fields device_id) pub.metrics = .ok gauges ∧
      (lookupA fields "model").isSome ∧
      (lookupA fields "firmware").isSome ∧
      pub' = set_timer { pub with model_info := infos, metrics := gauges } device_id := by
  cases data with
  | scalar s =>
      exact Except.noConfusion
        (show Except.error (PyErr.typeError "value is not subscriptable") = Except.ok pub' from h)
  | jarr elems =>
      exact Except.noConfusion
        (show Except.error (PyErr.typeError "value is not subscriptable") = Except.ok pub' from h)
  | jobj fields =>
      replace h : (do
          let device_id ← getItem fields "id"
          let infos ← mapE (updateInfo pub.model_keys fields device_id) pub.model_info
          let gauges ← mapE (updateGauge pub.postprocess fields device_id) pub.metrics
          let _ ← getItem fields "model"
          let _ ← getItem fields "firmware"
          Except.ok (set_timer { pub with model_info := infos, metrics := gauges } device_id)) =
            Except.ok pub' := h
      cases hid : getItem fields "id" with
      | error e => rw [hid, except_bind_error] at h; exact absurd h (by simp)
      | ok device_id =>
          rw [hid, except_bind_ok] at h
          cases hi : mapE (updateInfo pub.model_keys fields device_id) pub.model_info with
          | error e => rw [hi, except_bind_error] at h; exact absurd h (by simp)
          | ok infos =>
              rw [hi, except_bind_ok] at h
              cases hg : mapE (updateGauge pub.postprocess fields device_id) pub.metrics with
              | error e => rw [hg, except_bind_error] at h; exact absurd h (by simp)
              | ok gauges =>
                  rw [hg, except_bind_ok] at h
                  cases hm : getItem fields "model" with
                  | error e => rw [hm, except_bind_error] at h; exact absurd h (by simp)
                  | ok mv =>
                      rw [hm, except_bind_ok] at h
                      cases hf : getItem fields "firmware" with
                      | error e => rw [hf, except_bind_error] at h; exact absurd h (by simp)
                      | ok fv =>
                          rw [hf, except_bind_ok] at h
                          cases h
                          refine ⟨fields, device_id, infos, gauges, rfl,
                            (getItem_ok_iff _ _ _).mp hid, hi, hg, ?_, ?_, rfl⟩
                          · rw [(getItem_ok_iff _ _ _).mp hm]; rfl
                          · rw [(getItem_ok_iff _ _ _).mp hf]; rfl

end PublisherLemmas

section ReaderLemmas

theorem lookupA_any {β : Type} (l : List (String × β)) (k : String) (v : β)
    (h : lookupA l k = some v) : l.any (fun p => p.1 = k) = true := by
  induction l with
  | nil => simp [lookupA] at h
  | cons p rest ih =>
      obtain ⟨a, b⟩ := p
      rw [lookupA] at h
      by_cases ha : a = k
      · simp [ha]
      · rw [if_neg ha] at h
        simp [ih h]

theorem inAllowList_sint (device_ids : List Int) (n : Int) :
    inAllowList device_ids (.sint n) = true ↔ n ∈ device_ids := by
  unfold inAllowList
  rw [List.any_eq_true]
  constructor
  · rintro ⟨m, hm, hpe⟩
    have : n = m := by simpa [pyEq] using hpe
    rwa [this]
  · intro hm
    exact ⟨n, hm, by simp [pyEq]⟩

/-- The body of `WS90Reader.process_data` evaluated on a decoded object:
`data.get` and `"id" in data` reduce on a dict, leaving the model test, the
id test, and the allow-list test. -/
theorem process_data_jobj (device_ids : List Int) (fields : List (String × JScalar)) :
    process_data device_ids (.jobj fields) =
      (if pyEq ((lookupA fields "model").getD .snull) (.sstr "Fineoffset-WS90") = false
       then .ok false
       else if (fields.any (fun p => p.1 = "id")) = false then .ok false
       else do
         let device_id ← getItem fields "id"
         if device_ids.length > 0 ∧ inAllowList device_ids device_id = false then do
           let _ ← fmtHex device_id
           Except.ok false
         else Except.ok true) := rfl

end ReaderLemmas

/-- C4: a decoded JSON object whose `model` field is absent or differs from
`"Fineoffset-WS90"` makes `WS90Reader.process_data` return before
`signal.send`, so the reading is never broadcast.  (The `Nodup` hypothesis
restricts to genuine images of Python dicts.) -/
theorem wrong_model_never_broadcast
    (device_ids : List Int) (fields : List (String × JScalar))
    (hnd : (fields.map Prod.fst).Nodup)
    (hm : pyEq ((lookupA fields "model").getD .snull) (.sstr "Fineoffset-WS90") = false) :
    process_data device_ids (.jobj fields) = .ok false := by
  rw [process_data_jobj, if_pos hm]

/-- Witness for C4: a reading with `model = "Other"` is not broadcast. -/
theorem wrong_model_never_broadcast_witness :
    process_data [] (.jobj [("model", .sstr "Other"), ("id", .sint 5)]) = .ok false :=
  wrong_model_never_broadcast [] [("model", .sstr "Other"), ("id", .sint 5)]
    (by decide) (by decide)

/-- C5: with a non-empty allow-list, an expected-model reading carrying an
integer `id` is broadcast exactly when its id is in the allow-list, and a
non-member is discarded with only a debug log (the `ok false` return). -/
theorem allowlist_membership_decides_broadcast
    (device_ids : List Int) (fields : List (String × JScalar)) (n : Int)
    (hne : device_ids ≠ [])
    (hnd : (fields.map Prod.fst).Nodup)
    (hm : pyEq ((lookupA fields "model").getD .snull) (.sstr "Fineoffset-WS90") = true)
    (hid : lookupA fields "id" = some (.sint n)) :
    (process_data device_ids (.jobj fields) = .ok true ↔ n ∈ device_ids) ∧
    (n ∉ device_ids → process_data device_ids (.jobj fields) = .ok false) := by
  have hany := lookupA_any fields "id" _ hid
  have hlen : device_ids.length > 0 := by
    cases device_ids with
    | nil => exact absurd rfl hne
    | cons a l => simp
  rw [process_data_jobj, if_neg (by simp [hm]), hany, if_neg (by simp),
    (getItem_ok_iff _ _ _).mpr hid, except_bind_ok]
  by_cases hmem : n ∈ device_ids
  · rw [if_neg (by
      rintro ⟨-, hfalse⟩
      rw [(inAllowList_sint device_ids n).mpr hmem] at hfalse
      exact absurd hfalse (by simp))]
    constructor
    · simp [hmem]
    · intro hc
      exact absurd hmem hc
  · have hfalse : inAllowList device_ids (.sint n) = false := by
      cases hval : inAllowList device_ids (.sint n)
      · rfl
      · exact absurd ((inAllowList_sint device_ids n).mp hval) hmem
    rw [if_pos ⟨hlen, hfalse⟩,
      show fmtHex (.sint n) =
        .ok ((if n < 0 then "-" else "") ++ String.mk (Nat.toDigits 16 n.natAbs)) from rfl,
      except_bind_ok]
    constructor
    · constructor
      · intro hc
        exact absurd hc (by simp)
      · intro hc
        exact absurd hc hmem
    · intro _
      rfl

/-- Witness for C5: device 100 against the allow-list `[100, 5]`. -/
theorem allowlist_membership_decides_broadcast_witness :
    (process_data [100, 5] sampleReading = .ok true ↔ (100 : Int) ∈ [(100 : Int), 5]) ∧
    ((100 : Int) ∉ [(100 : Int), 5] → process_data [100, 5] sampleReading = .ok false) :=
  allowlist_membership_decides_broadcast [100, 5] sampleFields 100
    (by decide) (by decide) (by decide) (by decide)

/-- C9: a stdout line that decodes to a non-object JSON value is not
protected by `read_stdout`'s `except json.JSONDecodeError` clause:
`process_data` calls `.get` on the non-dict value and the `AttributeError`
escapes, ending the read loop; only lines that fail JSON decoding get the
logged-and-discarded treatment (`ok none`). -/
theorem non_object_line_escapes_reader
    (device_ids : List Int) (v : JValue)
    (hv : ∀ fields, v ≠ JValue.jobj fields) :
    read_stdout device_ids (.ok v) = .error (.attributeError "get") ∧
    (∀ e, read_stdout device_ids (.error e) = .ok none) := by
  constructor
  · have hget : pyGet v "model" = .error (.attributeError "get") := by
      cases v with
      | jobj fields => exact absurd rfl (hv fields)
      | scalar s => rfl
      | jarr es => rfl
    have hpd : process_data device_ids v = .error (.attributeError "get") := by
      unfold process_data
      rw [hget, except_bind_error]
    show (do
      let sent ← process_data device_ids v
      Except.ok (some sent) : Except PyErr (Option Bool)) = .error (.attributeError "get")
    rw [hpd, except_bind_error]
  · intro e
    rfl

/-- An environment in which the VictoriaMetrics backend accepts every POST. -/
def ok204 : Responder := fun _ => 204

/-- An environment in which the backend answers 500 to every POST. -/
def err500 : Responder := fun _ => 500

/-- The time parser for the sample reading's timestamp
(`datetime.strptime(.., "%Y-%m-%d %H:%M:%S")` treated as an oracle). -/
def strptime20240101 : String → Except PyErr Int := fun s =>
  if s = "2024-01-01 00:00:00" then .ok 1704067200
  else .error (.valueError "time data does not match format")

/-- The remote publisher as constructed by `WS90PromDaemon.__init__`. -/
def vmPub : VMPublisher := ⟨"http://localhost:8428", FIELDS, FIELDS_MODEL⟩

/-- C1: on a full accepted reading with all 12 `FIELDS` entries declared,
`VictoriaMetricsPublisher.data_callback` performs exactly 2 POSTs — one
metrics payload carrying only the first field descriptor
(`ws90_temperature_celsius`; the `break` in `_construct_metrics` drops the
other 11) and one model-info payload — not one POST per field descriptor. -/
theorem vm_data_callback_posts_only_first_field :
    (vmDataCallback ok204 strptime20240101 vmPub sampleReading).1.map VMPost.format =
      [["1:time:unix_s", "2:metric:ws90_temperature_celsius"],
       ["1:time:unix_s", "2:metric:ws90_model_info",
        "3:label:ws90_model", "4:label:ws90_model"]] ∧
    (vmDataCallback ok204 strptime20240101 vmPub sampleReading).2 = none ∧
    (vmDataCallback ok204 strptime20240101 vmPub sampleReading).1.length = 2 ∧
    FIELDS.length = 12 := by
  refine ⟨?_, rfl, rfl, rfl⟩
  decide

/-- C2 counterexample: when the backend answers 500, `raise_for_status`
raises inside `_post` and the exception escapes
`VictoriaMetricsPublisher.data_callback` — the callback does not contain
it, refuting that the exception never escapes the remote publisher. -/
theorem vm_http_error_escapes_callback :
    (vmDataCallback err500 strptime20240101 vmPub sampleReading).2 =
      some (.httpError 500) ∧
    (vmDataCallback err500 strptime20240101 vmPub sampleReading).1.length = 1 :=
  ⟨rfl, rfl⟩

/-- C2 amended: a non-success HTTP status (400–599) on the metrics POST
makes `raise_for_status` raise; the exception escapes `data_callback`
(there is no handler in the remote publisher), so only that payload was
posted, the reading's remaining payloads are dropped, and the exception
propagates to the publisher's caller. -/
theorem vm_non_success_status_raises
    (responder : Responder) (strptime : String → Except PyErr Int)
    (pub : VMPublisher) (fields : List (String × JScalar))
    (device_id : JScalar) (s : String) (ts : Int)
    (payload : List JScalar × List String) (st : Nat)
    (hid : lookupA fields "id" = some device_id)
    (htime : lookupA fields "time" = some (.sstr s))
    (hstr : strptime s = .ok ts)
    (hcm : construct_metrics pub.metrics_data fields ts = .ok payload)
    (hresp : responder ⟨"/api/v1/import/csv", payload.2, device_id, payload.1⟩ = st)
    (hst : 400 ≤ st) (hst2 : st < 600) :
    vmDataCallback responder strptime pub (.jobj fields) =
      ([⟨"/api/v1/import/csv", payload.2, device_id, payload.1⟩],
       some (.httpError st)) := by
  have h1 : getItem fields "id" = .ok device_id := (getItem_ok_iff _ _ _).mpr hid
  have h2 : getItem fields "time" = .ok (.sstr s) := (getItem_ok_iff _ _ _).mpr htime
  have hpost : vmPost responder device_id payload =
      (⟨"/api/v1/import/csv", payload.2, device_id, payload.1⟩,
       some (.httpError st)) := by
    simp only [vmPost]
    rw [hresp, if_pos ⟨hst, hst2⟩]
  simp only [vmDataCallback, h1, h2, hstr, hcm, hpost]

/-- Witness for C2's amended statement: the 500-responder on the sample
reading posts exactly the temperature payload and raises. -/
theorem vm_non_success_status_raises_witness :
    vmDataCallback err500 strptime20240101 vmPub sampleReading =
      ([⟨"/api/v1/import/csv",
         ["1:time:unix_s", "2:metric:ws90_temperature_celsius"],
         .sint 100,
         [.sint 1704067200, .sfloat (43 / 2)]⟩],
       some (.httpError 500)) :=
  vm_non_success_status_raises err500 strptime20240101 vmPub sampleFields
    (.sint 100) "2024-01-01 00:00:00" 1704067200
    ([.sint 1704067200, .sfloat (43 / 2)],
     ["1:time:unix_s", "2:metric:ws90_temperature_celsius"])
    500 rfl rfl rfl rfl rfl (by decide) (by decide)

/-- A subscriber whose callback raises (as `PrometheusPublisher`'s or
`VictoriaMetricsPublisher`'s `data_callback` can). -/
def failing_handler : JValue → Except PyErr JValue :=
  fun _ => .error (.valueError "boom")

/-- A subscriber whose callback succeeds. -/
def ok_handler : JValue → Except PyErr JValue :=
  fun d => .ok d

/-- C3 counterexample: with a raising handler registered before a healthy
one, `blinker`'s `send` calls only the first handler — receiver index 1 is
never invoked, refuting that every later-registered handler still receives
the Reading. -/
theorem broadcast_aborts_on_handler_error :
    blinker_send [failing_handler, ok_handler] miniReading =
      ([0], some (.valueError "boom")) ∧
    1 ∉ (blinker_send [failing_handler, ok_handler] miniReading).1 := by
  constructor
  · rfl
  · decide

/-- C3 amended: when a handler raises during the broadcast, the
earlier-registered handlers have already received the Reading, the raising
handler was invoked, and the exception propagates out of `send` — the
later-registered handlers are never invoked for that Reading. -/
theorem broadcast_stops_at_raising_handler
    (before after : List (JValue → Except PyErr JValue))
    (h : JValue → Except PyErr JValue) (data : JValue) (e : PyErr)
    (hok : ∀ r ∈ before, ∃ v, r data = Except.ok v)
    (hfail : h data = .error e) :
    blinker_send (before ++ h :: after) data =
      (List.range (before.length + 1), some e) := by
  have main : ∀ (bs : List (JValue → Except PyErr JValue)) (i : Nat),
      (∀ r ∈ bs, ∃ v, r data = Except.ok v) →
      sendFrom (bs ++ h :: after) i data = (List.range' i (bs.length + 1), some e) := by
    intro bs
    induction bs with
    | nil =>
        intro i _
        rw [List.nil_append, sendFrom, hfail]
        simp [List.range']
    | cons r rest ih =>
        intro i hok'
        obtain ⟨v, hv⟩ := hok' r (by simp)
        rw [List.cons_append, sendFrom, hv,
          ih (i + 1) (fun r' hr' => hok' r' (by simp [hr']))]
        simp [List.range']
  rw [blinker_send, main before 0 hok, List.range_eq_range']

/-- Witness for C3's amended statement: handler order ok, fail, ok — the
first two are called, the third is not, and the error escapes. -/
theorem broadcast_stops_at_raising_handler_witness :
    blinker_send [ok_handler, failing_handler, ok_handler] miniReading =
      (List.range 2, some (.valueError "boom")) :=
  broadcast_stops_at_raising_handler [ok_handler] [ok_handler] failing_handler
    miniReading (.valueError "boom")
    (by
      intro r hr
      rw [List.mem_singleton] at hr
      subst hr
      exact ⟨miniReading, rfl⟩)
    rfl

theorem forall2_and_mem {α β : Type} {r : α → β → Prop} {s : α → Prop} :
    ∀ {l : List α} {l' : List β}, List.Forall₂ r l l' → (∀ a ∈ l, s a) →
      List.Forall₂ (fun a b => r a b ∧ s a) l l' := by
  intro l l' h
  induction h with
  | nil => intro _; exact .nil
  | cons hab _ ih =>
      intro hs
      exact .cons ⟨hab, hs _ (List.mem_cons_self _ _)⟩
        (ih (fun a ha => hs a (List.mem_cons_of_mem _ ha)))

theorem forall2_mem_right {α β : Type} {r : α → β → Prop} :
    ∀ {l : List α} {l' : List β}, List.Forall₂ r l l' →
      ∀ b ∈ l', ∃ a ∈ l, r a b := by
  intro l l' h
  induction h with
  | nil => intro b hb; simp at hb
  | cons hab _ ih =>
      intro b hb
      rcases List.mem_cons.mp hb with hEq | hmem
      · subst hEq
        exact ⟨_, List.mem_cons_self _ _, hab⟩
      · obtain ⟨a, ha, hr⟩ := ih b hmem
        exact ⟨a, List.mem_cons_of_mem _ ha, hr⟩

theorem removeGaugeElem_spec (dev : JScalar) (p q : String × Gauge)
    (h : (do
        let s ← removeK p.2.series dev
        Except.ok (p.1, { p.2 with series := s })) = .ok q) :
    q.1 = p.1 ∧ q.2.name = p.2.name ∧ removeK p.2.series dev = .ok q.2.series := by
  cases hr : removeK p.2.series dev with
  | error e => rw [hr, except_bind_error] at h; exact absurd h (by simp)
  | ok s =>
      rw [hr, except_bind_ok] at h
      cases h
      exact ⟨rfl, rfl, by simpa using hr⟩

theorem removeInfoElem_spec (dev : JScalar) (p q : String × InfoMetric)
    (h : (do
        let s ← removeK p.2.series dev
        Except.ok (p.1, { p.2 with series := s })) = .ok q) :
    q.1 = p.1 ∧ q.2.name = p.2.name ∧ removeK p.2.series dev = .ok q.2.series := by
  cases hr : removeK p.2.series dev with
  | error e => rw [hr, except_bind_error] at h; exact absurd h (by simp)
  | ok s =>
      rw [hr, except_bind_ok] at h
      cases h
      exact ⟨rfl, rfl, by simpa using hr⟩

theorem clear_metrics_ok_elim (pub pub' : PromPublisher) (dev : JScalar)
    (h : clear_metrics pub dev = .ok pub') :
    ∃ gauges infos,
      mapE (fun p => do
        let s ← removeK p.2.series dev
        Except.ok (p.1, { p.2 with series := s })) pub.metrics = .ok gauges ∧
      mapE (fun p => do
        let s ← removeK p.2.series dev
        Except.ok (p.1, { p.2 with series := s })) pub.model_info = .ok infos ∧
      pub' = { pub with
               metrics := gauges
               model_info := infos
               cleared_count := pub.cleared_count + 1 } := by
  unfold clear_metrics at h
  cases hg : mapE (fun p => do
      let s ← removeK p.2.series dev
      Except.ok (p.1, { p.2 with series := s })) pub.metrics with
  | error e => rw [hg, except_bind_error] at h; exact absurd h (by simp)
  | ok gauges =>
      rw [hg, except_bind_ok] at h
      cases hi : mapE (fun p => do
          let s ← removeK p.2.series dev
          Except.ok (p.1, { p.2 with series := s })) pub.model_info with
      | error e => rw [hi, except_bind_error] at h; exact absurd h (by simp)
      | ok infos =>
          rw [hi, except_bind_ok] at h
          cases h
          exact ⟨gauges, infos, rfl, rfl, rfl⟩

/-- C7: when a device's timer fires, `PrometheusPublisher.clear_metrics`
removes that device's label series from every registered gauge and every
info metric and leaves every other device's series unchanged (hypotheses:
each series map has unique device keys, as a Python dict guarantees, and
the removal succeeded — i.e. the device had a series everywhere, which is
what `data_callback` established when it armed the timer). -/
theorem clear_metrics_removes_only_device
    (pub pub' : PromPublisher) (dev : JScalar)
    (hgnd : ∀ p ∈ pub.metrics, ((p.2 : Gauge).series.map Prod.fst).Nodup)
    (hind : ∀ p ∈ pub.model_info, ((p.2 : InfoMetric).series.map Prod.fst).Nodup)
    (h : clear_metrics pub dev = .ok pub') :
    (∀ k g, lookupA pub.metrics k = some g →
       ∃ g', lookupA pub'.metrics k = some g' ∧ g'.name = g.name ∧
         lookupK g'.series dev = none ∧
         ∀ d, d ≠ dev → lookupK g'.series d = lookupK g.series d) ∧
    (∀ k m, lookupA pub.model_info k = some m →
       ∃ m', lookupA pub'.model_info k = some m' ∧ m'.name = m.name ∧
         lookupK m'.series dev = none ∧
         ∀ d, d ≠ dev → lookupK m'.series d = lookupK m.series d) ∧
    pub'.cleared_count = pub.cleared_count + 1 := by
  obtain ⟨gauges, infos, hg, hi, hpub'⟩ := clear_metrics_ok_elim pub pub' dev h
  subst hpub'
  refine ⟨?_, ?_, rfl⟩
  · have h2 := forall2_and_mem (mapE_ok_forall2 hg) hgnd
    have h3 : List.Forall₂ (fun (p q : String × Gauge) => p.1 = q.1 ∧
        (fun (g g' : Gauge) => g'.name = g.name ∧ lookupK g'.series dev = none ∧
          ∀ d, d ≠ dev → lookupK g'.series d = lookupK g.series d) p.2 q.2)
        pub.metrics gauges := by
      refine List.Forall₂.imp ?_ h2
      rintro p q ⟨hok, hnd⟩
      obtain ⟨hfst, hname, hrem⟩ := removeGaugeElem_spec dev p q hok
      exact ⟨hfst.symm, hname, removeK_ok_lookup_self _ _ _ hnd hrem,
        fun d hd => removeK_ok_lookup_ne _ _ _ _ hrem hd⟩
    intro k g hlook
    obtain ⟨g', hlook', hR⟩ := ((lookupA_forall2 (fun (g g' : Gauge) =>
      g'.name = g.name ∧ lookupK g'.series dev = none ∧
      ∀ d, d ≠ dev → lookupK g'.series d = lookupK g.series d) h3) k).2 g hlook
    exact ⟨g', hlook', hR.1, hR.2.1, hR.2.2⟩
  · have h2 := forall2_and_mem (mapE_ok_forall2 hi) hind
    have h3 : List.Forall₂ (fun (p q : String × InfoMetric) => p.1 = q.1 ∧
        (fun (m m' : InfoMetric) => m'.name = m.name ∧ lookupK m'.series dev = none ∧
          ∀ d, d ≠ dev → lookupK m'.series d = lookupK m.series d) p.2 q.2)
        pub.model_info infos := by
      refine List.Forall₂.imp ?_ h2
      rintro p q ⟨hok, hnd⟩
      obtain ⟨hfst, hname, hrem⟩ := removeInfoElem_spec dev p q hok
      exact ⟨hfst.symm, hname, removeK_ok_lookup_self _ _ _ hnd hrem,
        fun d hd => removeK_ok_lookup_ne _ _ _ _ hrem hd⟩
    intro k m hlook
    obtain ⟨m', hlook', hR⟩ := ((lookupA_forall2 (fun (m m' : InfoMetric) =>
      m'.name = m.name ∧ lookupK m'.series dev = none ∧
      ∀ d, d ≠ dev → lookupK m'.series d = lookupK m.series d) h3) k).2 m hlook
    exact ⟨m', hlook', hR.1, hR.2.1, hR.2.2⟩

/-- A publisher holding series for devices 100 and 200, as after readings
from both devices. -/
def pubTwoDev : PromPublisher :=
  { clear_interval := 120
    metrics := [("temperature_C",
      ⟨"ws90_temperature_celsius", "Temperature in Celsius",
        [(.sint 100, ((21 : Int) : ℚ)), (.sint 200, ((7 : Int) : ℚ))]⟩)]
    postprocess := []
    model_info := [("ws90_model",
      ⟨"ws90_model", "Model information",
        [(.sint 100, [("firmware", .sstr "126"), ("model", .sstr "Fineoffset-WS90")]),
         (.sint 200, [("firmware", .sstr "126"), ("model", .sstr "Fineoffset-WS90")])]⟩)]
    model_keys := [("ws90_model", ["firmware", "model"])]
    timers := [.sint 100, .sint 200]
    armed := [.sint 100, .sint 200]
    cleared_count := 0 }

/-- `pubTwoDev` after `clear_metrics` for device 100. -/
def pubTwoDevCleared : PromPublisher :=
  { pubTwoDev with
    metrics := [("temperature_C",
      ⟨"ws90_temperature_celsius", "Temperature in Celsius",
        [(.sint 200, ((7 : Int) : ℚ))]⟩)]
    model_info := [("ws90_model",
      ⟨"ws90_model", "Model information",
        [(.sint 200, [("firmware", .sstr "126"), ("model", .sstr "Fineoffset-WS90")])]⟩)]
    cleared_count := 1 }

/-- Witness for C7: clearing device 100 of `pubTwoDev` removes its series
everywhere and leaves device 200 untouched. -/
theorem clear_metrics_removes_only_device_witness :
    (∀ k g, lookupA pubTwoDev.metrics k = some g →
       ∃ g', lookupA pubTwoDevCleared.metrics k = some g' ∧ g'.name = g.name ∧
         lookupK g'.series (.sint 100) = none ∧
         ∀ d, d ≠ (.sint 100) → lookupK g'.series d = lookupK g.series d) ∧
    (∀ k m, lookupA pubTwoDev.model_info k = some m →
       ∃ m', lookupA pubTwoDevCleared.model_info k = some m' ∧ m'.name = m.name ∧
         lookupK m'.series (.sint 100) = none ∧
         ∀ d, d ≠ (.sint 100) → lookupK m'.series d = lookupK m.series d) ∧
    pubTwoDevCleared.cleared_count = pubTwoDev.cleared_count + 1 :=
  clear_metrics_removes_only_device pubTwoDev pubTwoDevCleared (.sint 100)
    (by decide) (by decide) rfl

/-- C8: delivering the same Reading to `PrometheusPublisher.data_callback`
twice leaves the registry exactly as one delivery does — the gauge and info
series after the second call equal those after the first (last-write-wins),
and series key-uniqueness (no duplicate label series) is preserved. -/
theorem data_callback_idempotent
    (pub pub1 pub2 : PromPublisher) (data : JValue)
    (h1 : promDataCallback pub data = .ok pub1)
    (h2 : promDataCallback pub1 data = .ok pub2) :
    pub2.metrics = pub1.metrics ∧ pub2.model_info = pub1.model_info ∧
    ((∀ p ∈ pub.metrics, ((p.2 : Gauge).series.map Prod.fst).Nodup) →
      (∀ p ∈ pub1.metrics, ((p.2 : Gauge).series.map Prod.fst).Nodup) ∧
      (∀ p ∈ pub2.metrics, ((p.2 : Gauge).series.map Prod.fst).Nodup)) := by
  obtain ⟨fields, dev, infos1, gauges1, hdata, hid, hi1, hg1, _, _, hp1⟩ :=
    promDataCallback_ok_elim pub pub1 data h1
  obtain ⟨fields2, dev2, infos2, gauges2, hdata2, hid2, hi2, hg2, _, _, hp2⟩ :=
    promDataCallback_ok_elim pub1 pub2 data h2
  subst hdata
  injection hdata2 with hf
  subst hf
  rw [hid] at hid2
  injection hid2 with hdev
  subst hdev
  have hst1 := set_timer_proj { pub with model_info := infos1, metrics := gauges1 } dev
  have hm1 : pub1.metrics = gauges1 := by rw [hp1]; exact hst1.2.1
  have hmi1 : pub1.model_info = infos1 := by rw [hp1]; exact hst1.2.2.2.1
  have hpp1 : pub1.postprocess = pub.postprocess := by rw [hp1]; exact hst1.2.2.1
  have hmk1 : pub1.model_keys = pub.model_keys := by rw [hp1]; exact hst1.2.2.2.2.1
  rw [hpp1, hm1] at hg2
  rw [hmk1, hmi1] at hi2
  have hidg : mapE (updateGauge pub.postprocess fields dev) gauges1 = .ok gauges1 :=
    mapE_idem (fun a b hab => updateGauge_idem _ _ _ _ _ hab) hg1
  have hidi : mapE (updateInfo pub.model_keys fields dev) infos1 = .ok infos1 :=
    mapE_idem (fun a b hab => updateInfo_idem _ _ _ _ _ hab) hi1
  rw [hidg] at hg2
  injection hg2 with hg2eq
  rw [hidi] at hi2
  injection hi2 with hi2eq
  have hst2 := set_timer_proj { pub1 with model_info := infos2, metrics := gauges2 } dev
  have hm2 : pub2.metrics = gauges2 := by rw [hp2]; exact hst2.2.1
  have hmi2 : pub2.model_info = infos2 := by rw [hp2]; exact hst2.2.2.2.1
  have hnd1 : (∀ p ∈ pub.metrics, ((p.2 : Gauge).series.map Prod.fst).Nodup) →
      ∀ p ∈ pub1.metrics, ((p.2 : Gauge).series.map Prod.fst).Nodup := by
    intro hnd0 q hq
    rw [hm1] at hq
    obtain ⟨p, hp, hok⟩ := forall2_mem_right (mapE_ok_forall2 hg1) q hq
    obtain ⟨-, -, -, val, hser⟩ := updateGauge_ok_spec _ _ _ _ _ hok
    rw [hser]
    exact nodup_keys_setA _ _ _ (hnd0 p hp)
  refine ⟨?_, ?_, ?_⟩
  · rw [hm2, ← hg2eq, hm1]
  · rw [hmi2, ← hi2eq, hmi1]
  · intro hnd0
    refine ⟨hnd1 hnd0, ?_⟩
    intro q hq
    rw [hm2, ← hg2eq, ← hm1] at hq
    exact hnd1 hnd0 q hq

/-- A gauge series for device `d` under metric key `k` is currently exposed
by the publisher. -/
def gaugePresent (pub : PromPublisher) (k : String) (d : JScalar) : Prop :=
  ∃ g, lookupA pub.metrics k = some g ∧ (lookupK g.series d).isSome = true

/-- An info series for device `d` under info name `k` is currently exposed
by the publisher. -/
def infoPresent (pub : PromPublisher) (k : String) (d : JScalar) : Prop :=
  ∃ m, lookupA pub.model_info k = some m ∧ (lookupK m.series d).isSome = true

theorem isSome_lookupK_setA {α β : Type} [DecidableEq α]
    (l : List (α × β)) (k d : α) (v : β)
    (h : (lookupK l d).isSome = true) : (lookupK (setA l k v) d).isSome = true := by
  by_cases hd : d = k
  · subst hd
    rw [lookupK_setA_self]
    rfl
  · rw [lookupK_setA_ne l k d v hd]
    exact h

theorem promStep_zero_spec (pub pub' : PromPublisher) (e : Event)
    (hci : pub.clear_interval = 0) (ha : pub.armed = [])
    (h : promStep pub e = .ok pub') :
    pub'.clear_interval = 0 ∧ pub'.timers = pub.timers ∧ pub'.armed = [] ∧
    pub'.cleared_count = pub.cleared_count ∧
    (∀ k d, gaugePresent pub k d → gaugePresent pub' k d) ∧
    (∀ k d, infoPresent pub k d → infoPresent pub' k d) := by
  cases e with
  | timer_fires dev =>
      have hstep : promStep pub (.timer_fires dev) = .ok pub := by
        rw [promStep, if_neg (by rw [ha]; exact List.not_mem_nil dev)]
      rw [hstep] at h
      cases h
      exact ⟨hci, rfl, ha, rfl, fun _ _ hp => hp, fun _ _ hp => hp⟩
  | reading data =>
      obtain ⟨fields, dev, infos, gauges, hdata, hid, hi, hg, _, _, hpub'⟩ :=
        promDataCallback_ok_elim pub pub' data h
      have hz : set_timer { pub with model_info := infos, metrics := gauges } dev =
          { pub with model_info := infos, metrics := gauges } :=
        set_timer_zero _ dev hci
      rw [hz] at hpub'
      subst hpub'
      refine ⟨hci, rfl, ha, rfl, ?_, ?_⟩
      · intro k d hp
        obtain ⟨g, hlook, hsome⟩ := hp
        have h3 : List.Forall₂ (fun (p q : String × Gauge) => p.1 = q.1 ∧
            (fun (g g' : Gauge) => ∃ val, g'.series = setA g.series dev val) p.2 q.2)
            pub.metrics gauges := by
          refine List.Forall₂.imp ?_ (mapE_ok_forall2 hg)
          intro p q hok
          obtain ⟨hfst, -, -, val, hser⟩ := updateGauge_ok_spec _ _ _ _ _ hok
          exact ⟨hfst.symm, val, hser⟩
        obtain ⟨g', hlook', val, hser⟩ := ((lookupA_forall2
          (fun (g g' : Gauge) => ∃ val, g'.series = setA g.series dev val) h3) k).2 g hlook
        exact ⟨g', hlook', by rw [hser]; exact isSome_lookupK_setA _ _ _ _ hsome⟩
      · intro k d hp
        obtain ⟨m, hlook, hsome⟩ := hp
        have h3 : List.Forall₂ (fun (p q : String × InfoMetric) => p.1 = q.1 ∧
            (fun (m m' : InfoMetric) => ∃ val, m'.series = setA m.series dev val) p.2 q.2)
            pub.model_info infos := by
          refine List.Forall₂.imp ?_ (mapE_ok_forall2 hi)
          intro p q hok
          obtain ⟨hfst, -, -, val, hser⟩ := updateInfo_ok_spec _ _ _ _ _ hok
          exact ⟨hfst.symm, val, hser⟩
        obtain ⟨m', hlook', val, hser⟩ := ((lookupA_forall2
          (fun (m m' : InfoMetric) => ∃ val, m'.series = setA m.series dev val) h3) k).2 m hlook
        exact ⟨m', hlook', by rw [hser]; exact isSome_lookupK_setA _ _ _ _ hsome⟩

theorem runEvents_zero_spec (evs : List Event) :
    ∀ (pub pub' : PromPublisher), pub.clear_interval = 0 → pub.armed = [] →
    runEvents pub evs = .ok pub' →
    pub'.clear_interval = 0 ∧ pub'.timers = pub.timers ∧ pub'.armed = [] ∧
    pub'.cleared_count = pub.cleared_count ∧
    (∀ k d, gaugePresent pub k d → gaugePresent pub' k d) ∧
    (∀ k d, infoPresent pub k d → infoPresent pub' k d) := by
  induction evs with
  | nil =>
      intro pub pub' h0 ha h
      rw [runEvents] at h
      cases h
      exact ⟨h0, rfl, ha, rfl, fun _ _ hp => hp, fun _ _ hp => hp⟩
  | cons e rest ih =>
      intro pub pub' h0 ha h
      rw [runEvents] at h
      cases hstep : promStep pub e with
      | error er => rw [hstep, except_bind_error] at h; exact absurd h (by simp)
      | ok mid =>
          rw [hstep, except_bind_ok] at h
          obtain ⟨s1, s2, s3, s4, s5, s6⟩ := promStep_zero_spec pub mid e h0 ha hstep
          obtain ⟨r1, r2, r3, r4, r5, r6⟩ := ih mid pub' s1 s3 h
          exact ⟨r1, r2.trans s2, r3, r4.trans s4,
            fun k d hp => r5 k d (s5 k d hp),
            fun k d hp => r6 k d (s6 k d hp)⟩

/-- C6: with `clear_interval = 0`, `PrometheusPublisher.set_timer` returns
immediately, so across any interleaving of readings and timer expiries no
`ResettableTimer` is ever created or armed, `clear_metrics` is never
invoked (`cleared_count` stays put), and every exposed gauge or info series
survives — regardless of elapsed time or readings from other devices. -/
theorem clear_interval_zero_disables_expiry
    (pub pub' : PromPublisher) (evs : List Event)
    (hci : pub.clear_interval = 0) (ht : pub.timers = []) (ha : pub.armed = [])
    (hrun : runEvents pub evs = .ok pub') :
    pub'.timers = [] ∧ pub'.armed = [] ∧
    pub'.cleared_count = pub.cleared_count ∧
    (∀ k d, gaugePresent pub k d → gaugePresent pub' k d) ∧
    (∀ k d, infoPresent pub k d → infoPresent pub' k d) := by
  obtain ⟨r1, r2, r3, r4, r5, r6⟩ := runEvents_zero_spec evs pub pub' hci ha hrun
  exact ⟨r2.trans ht, r3, r4, r5, r6⟩

/-- The local publisher over the one-gauge table with expiry disabled. -/
def pubZeroCI : PromPublisher := promInit 0 FIELDS1 FIELDS_MODEL

/-- `pubZeroCI` after a reading from device 100 (no timer is created). -/
def pubZeroCIAfter : PromPublisher :=
  { clear_interval := 0
    metrics := [("temperature_C",
      ⟨"ws90_temperature_celsius", "Temperature in Celsius",
        [(.sint 100, ((21 : Int) : ℚ))]⟩)]
    postprocess := []
    model_info := [("ws90_model",
      ⟨"ws90_model", "Model information",
        [(.sint 100, [("firmware", .sstr "126"), ("model", .sstr "Fineoffset-WS90")])]⟩)]
    model_keys := [("ws90_model", ["firmware", "model"])]
    timers := []
    armed := []
    cleared_count := 0 }

/-- Witness for C6: a reading, an attempted expiry, and another reading
leave the zero-interval publisher without timers and with its series
intact. -/
theorem clear_interval_zero_disables_expiry_witness :
    pubZeroCIAfter.timers = [] ∧ pubZeroCIAfter.armed = [] ∧
    pubZeroCIAfter.cleared_count = pubZeroCI.cleared_count ∧
    (∀ k d, gaugePresent pubZeroCI k d → gaugePresent pubZeroCIAfter k d) ∧
    (∀ k d, infoPresent pubZeroCI k d → infoPresent pubZeroCIAfter k d) :=
  clear_interval_zero_disables_expiry pubZeroCI pubZeroCIAfter
    [.reading miniReading, .timer_fires (.sint 100), .reading miniReading]
    rfl rfl rfl rfl

/-- The local publisher over the one-gauge table, freshly constructed. -/
def pubMini : PromPublisher := promInit 120 FIELDS1 FIELDS_MODEL

/-- `pubMini` after one (or more) deliveries of `miniReading`. -/
def pubMiniOnce : PromPublisher :=
  { clear_interval := 120
    metrics := [("temperature_C",
      ⟨"ws90_temperature_celsius", "Temperature in Celsius",
        [(.sint 100, ((21 : Int) : ℚ))]⟩)]
    postprocess := []
    model_info := [("ws90_model",
      ⟨"ws90_model", "Model information",
        [(.sint 100, [("firmware", .sstr "126"), ("model", .sstr "Fineoffset-WS90")])]⟩)]
    model_keys := [("ws90_model", ["firmware", "model"])]
    timers := [.sint 100]
    armed := [.sint 100]
    cleared_count := 0 }

/-- Witness for C8: delivering `miniReading` twice to the fresh publisher
gives the same registry as delivering it once. -/
theorem data_callback_idempotent_witness :
    pubMiniOnce.metrics = pubMiniOnce.metrics ∧
    pubMiniOnce.model_info = pubMiniOnce.model_info ∧
    ((∀ p ∈ pubMini.metrics, ((p.2 : Gauge).series.map Prod.fst).Nodup) →
      (∀ p ∈ pubMiniOnce.metrics, ((p.2 : Gauge).series.map Prod.fst).Nodup) ∧
      (∀ p ∈ pubMiniOnce.metrics, ((p.2 : Gauge).series.map Prod.fst).Nodup)) :=
  data_callback_idempotent pubMini pubMiniOnce pubMiniOnce miniReading rfl rfl

/-- Numeric Python values (`int` or `float`), the values the sensor fields
of a WS90 reading carry. -/
def isNumeric : JScalar → Bool
  | .sint _ => true
  | .sfloat _ => true
  | _ => false

/-- The keys `PrometheusPublisher.data_callback` indexes with `data[k]`:
every source key of the `FIELDS` table plus the keys of the Model-Info
descriptor. -/
def requiredKeys : List String :=
  FIELDS.map Field.json_key ++ ["firmware", "model"]

/-- The body of `PrometheusPublisher.data_callback` evaluated on a decoded
object. -/
theorem promDataCallback_jobj (pub : PromPublisher) (fields : List (String × JScalar)) :
    promDataCallback pub (.jobj fields) = (do
      let device_id ← getItem fields "id"
      let infos ← mapE (updateInfo pub.model_keys fields device_id) pub.model_info
      let gauges ← mapE (updateGauge pub.postprocess fields device_id) pub.metrics
      let _ ← getItem fields "model"
      let _ ← getItem fields "firmware"
      Except.ok (set_timer { pub with model_info := infos, metrics := gauges }
        device_id)) := rfl

theorem promDataCallback_info_error (pub : PromPublisher)
    (fields : List (String × JScalar)) (dev : JScalar) (e : PyErr)
    (hid : lookupA fields "id" = some dev)
    (hi : mapE (updateInfo pub.model_keys fields dev) pub.model_info = .error e) :
    promDataCallback pub (.jobj fields) = .error e := by
  rw [promDataCallback_jobj, (getItem_ok_iff fields "id" dev).mpr hid, except_bind_ok,
    hi, except_bind_error]

theorem promDataCallback_gauge_error (pub : PromPublisher)
    (fields : List (String × JScalar)) (dev : JScalar)
    (infos : List (String × InfoMetric)) (e : PyErr)
    (hid : lookupA fields "id" = some dev)
    (hi : mapE (updateInfo pub.model_keys fields dev) pub.model_info = .ok infos)
    (hg : mapE (updateGauge pub.postprocess fields dev) pub.metrics = .error e) :
    promDataCallback pub (.jobj fields) = .error e := by
  rw [promDataCallback_jobj, (getItem_ok_iff fields "id" dev).mpr hid, except_bind_ok,
    hi, except_bind_ok, hg, except_bind_error]

/-- The info dict comprehension `{k: data[k] for k in keys}` raises
`KeyError` at a missing key. -/
theorem info_payload_error (fields : List (String × JScalar)) :
    ∀ (keys : List String), (∃ k ∈ keys, lookupA fields k = none) →
      ∃ k ∈ keys, lookupA fields k = none ∧
        mapE (fun k => do
          let v ← getItem fields k
          Except.ok ((k, v) : String × JScalar)) keys = .error (.keyError k) := by
  intro keys
  induction keys with
  | nil =>
      rintro ⟨k, hk, -⟩
      simp at hk
  | cons a rest ih =>
      intro hex
      cases ha : lookupA fields a with
      | none =>
          refine ⟨a, List.mem_cons_self _ _, ha, ?_⟩
          have hfa : (do
              let v ← getItem fields a
              Except.ok ((a, v) : String × JScalar)) = .error (.keyError a) := by
            simp [getItem, ha, except_bind_error]
          rw [mapE, hfa, except_bind_error]
      | some v =>
          have hex' : ∃ k ∈ rest, lookupA fields k = none := by
            rcases hex with ⟨k, hk, hnone⟩
            rcases List.mem_cons.mp hk with hEq | hmem
            · subst hEq
              rw [ha] at hnone
              exact absurd hnone (by simp)
            · exact ⟨k, hmem, hnone⟩
          obtain ⟨k, hk, hnone, herr⟩ := ih hex'
          refine ⟨k, List.mem_cons_of_mem _ hk, hnone, ?_⟩
          have hfa : (do
              let v ← getItem fields a
              Except.ok ((a, v) : String × JScalar)) = .ok ((a, v) : String × JScalar) := by
            simp [getItem, ha, except_bind_ok]
          rw [mapE, hfa, except_bind_ok, herr, except_bind_error]

/-- The gauge loop of `data_callback` raises `KeyError` at the first
declared key missing from the reading, provided the present declared
values let their transform and `float()` coercion succeed. -/
theorem gauge_loop_error_of_missing
    (pp : List (String × (JScalar → Except PyErr JScalar)))
    (fields : List (String × JScalar)) (dev : JScalar) :
    ∀ (ps : List (String × Gauge)),
      (∀ p ∈ ps, ∀ v, lookupA fields p.1 = some v →
        ∃ q, updateGauge pp fields dev p = .ok q) →
      (∃ p ∈ ps, lookupA fields p.1 = none) →
      ∃ k, k ∈ ps.map Prod.fst ∧ lookupA fields k = none ∧
        mapE (updateGauge pp fields dev) ps = .error (.keyError k) := by
  intro ps
  induction ps with
  | nil =>
      rintro - ⟨p, hp, -⟩
      simp at hp
  | cons p rest ih =>
      intro hsucc hex
      cases hp1 : lookupA fields p.1 with
      | none =>
          refine ⟨p.1, by simp, hp1, ?_⟩
          have hup : updateGauge pp fields dev p = .error (.keyError p.1) := by
            unfold updateGauge
            have happ : ppApply pp fields p.1 = .error (.keyError p.1) := by
              unfold ppApply
              cases hppc : lookupA pp p.1 with
              | some f => simp [getItem, hp1, except_bind_error]
              | none => simp [getItem, hp1]
            rw [happ, except_bind_error]
          rw [mapE, hup, except_bind_error]
      | some v =>
          obtain ⟨q, hq⟩ := hsucc p (List.mem_cons_self _ _) v hp1
          have hex' : ∃ p' ∈ rest, lookupA fields p'.1 = none := by
            rcases hex with ⟨p', hp', hnone⟩
            rcases List.mem_cons.mp hp' with hEq | hmem
            · subst hEq
              rw [hp1] at hnone
              exact absurd hnone (by simp)
            · exact ⟨p', hmem, hnone⟩
          obtain ⟨k, hk, hnone, herr⟩ :=
            ih (fun p' hp' v' hv' => hsucc p' (List.mem_cons_of_mem _ hp') v' hv') hex'
          exact ⟨k, by simp [hk], hnone,
            by rw [mapE, hq, except_bind_ok, herr, except_bind_error]⟩

/-- C10: `PrometheusPublisher.data_callback` indexes the reading with
`data[k]` for every `FIELDS` source key and for `firmware` and `model`; an
accepted reading (integer/float sensor values, `id` present) that lacks any
one of these keys makes the callback raise an uncaught `KeyError` for a
missing declared key — the table-declared fields are required, not
optional. -/
theorem declared_keys_are_required
    (ci : Nat) (fields : List (String × JScalar)) (idv : JScalar)
    (hnd : (fields.map Prod.fst).Nodup)
    (hid : lookupA fields "id" = some idv)
    (hnum : ∀ k ∈ FIELDS.map Field.json_key, Option.all isNumeric (lookupA fields k) = true)
    (hmiss : ∃ k ∈ requiredKeys, lookupA fields k = none) :
    ∃ k ∈ requiredKeys, lookupA fields k = none ∧
      promDataCallback (promInit ci FIELDS FIELDS_MODEL) (.jobj fields) =
        .error (.keyError k) := by
  by_cases hfm : lookupA fields "firmware" = none ∨ lookupA fields "model" = none
  · have hex : ∃ k ∈ ["firmware", "model"], lookupA fields k = none := by
      rcases hfm with h | h
      · exact ⟨"firmware", by simp, h⟩
      · exact ⟨"model", by simp, h⟩
    obtain ⟨k, hk, hnone, herr⟩ := info_payload_error fields ["firmware", "model"] hex
    refine ⟨k, ?_, hnone, ?_⟩
    · unfold requiredKeys
      exact List.mem_append_right _ hk
    · apply promDataCallback_info_error _ fields idv _ hid
      rw [show (promInit ci FIELDS FIELDS_MODEL).model_keys =
            [("ws90_model", ["firmware", "model"])] from rfl,
          show (promInit ci FIELDS FIELDS_MODEL).model_info =
            [("ws90_model", ⟨"ws90_model", "Model information", []⟩)] from rfl]
      have hui : updateInfo [("ws90_model", ["firmware", "model"])] fields idv
          ("ws90_model", ⟨"ws90_model", "Model information", []⟩) =
          .error (.keyError k) := by
        have hred : updateInfo [("ws90_model", ["firmware", "model"])] fields idv
            ("ws90_model", ⟨"ws90_model", "Model information", []⟩) = (do
              let payload ← mapE (fun k => do
                let v ← getItem fields k
                Except.ok ((k, v) : String × JScalar)) ["firmware", "model"]
              Except.ok (("ws90_model", ⟨"ws90_model", "Model information",
                setA ([] : List (JScalar × List (String × JScalar))) idv payload⟩) :
                String × InfoMetric)) := rfl
        rw [hred, herr, except_bind_error]
      rw [mapE, hui, except_bind_error]
  · push_neg at hfm
    obtain ⟨hfw, hmo⟩ := hfm
    obtain ⟨vf, hvf⟩ := Option.ne_none_iff_exists'.mp hfw
    obtain ⟨vm, hvm⟩ := Option.ne_none_iff_exists'.mp hmo
    have hpay : mapE (fun k => do
        let v ← getItem fields k
        Except.ok ((k, v) : String × JScalar)) ["firmware", "model"] =
        .ok [("firmware", vf), ("model", vm)] := by
      have hfa : (do
          let v ← getItem fields "firmware"
          Except.ok (("firmware", v) : String × JScalar)) =
          .ok (("firmware", vf) : String × JScalar) := by
        simp [getItem, hvf, except_bind_ok]
      have hfb : (do
          let v ← getItem fields "model"
          Except.ok (("model", v) : String × JScalar)) =
          .ok (("model", vm) : String × JScalar) := by
        simp [getItem, hvm, except_bind_ok]
      rw [mapE, hfa, except_bind_ok, mapE, hfb, except_bind_ok]
      rfl
    have hinfoOk : mapE
        (updateInfo (promInit ci FIELDS FIELDS_MODEL).model_keys fields idv)
        (promInit ci FIELDS FIELDS_MODEL).model_info =
        .ok [("ws90_model", ⟨"ws90_model", "Model information",
          setA [] idv [("firmware", vf), ("model", vm)]⟩)] := by
      rw [show (promInit ci FIELDS FIELDS_MODEL).model_keys =
            [("ws90_model", ["firmware", "model"])] from rfl,
          show (promInit ci FIELDS FIELDS_MODEL).model_info =
            [("ws90_model", ⟨"ws90_model", "Model information", []⟩)] from rfl]
      have hui : updateInfo [("ws90_model", ["firmware", "model"])] fields idv
          ("ws90_model", ⟨"ws90_model", "Model information", []⟩) =
          .ok ("ws90_model", ⟨"ws90_model", "Model information",
            setA [] idv [("firmware", vf), ("model", vm)]⟩) := by
        have hred : updateInfo [("ws90_model", ["firmware", "model"])] fields idv
            ("ws90_model", ⟨"ws90_model", "Model information", []⟩) = (do
              let payload ← mapE (fun k => do
                let v ← getItem fields k
                Except.ok ((k, v) : String × JScalar)) ["firmware", "model"]
              Except.ok (("ws90_model", ⟨"ws90_model", "Model information",
                setA ([] : List (JScalar × List (String × JScalar))) idv payload⟩) :
                String × InfoMetric)) := rfl
        rw [hred, hpay, except_bind_ok]
      rw [mapE, hui, except_bind_ok, mapE, except_bind_ok]
    have hppf : ∀ k f, lookupA ([("battery_mV", div_by_1000), ("rain_mm", div_by_1000)] :
        List (String × (JScalar → Except PyErr JScalar))) k = some f →
        f = div_by_1000 := by
      intro k f h
      rw [lookupA] at h
      by_cases h1 : "battery_mV" = k
      · rw [if_pos h1] at h
        cases h
        rfl
      · rw [if_neg h1, lookupA] at h
        by_cases h2 : "rain_mm" = k
        · rw [if_pos h2] at h
          cases h
          rfl
        · rw [if_neg h2, lookupA] at h
          cases h
    have hsucc : ∀ p ∈ (promInit ci FIELDS FIELDS_MODEL).metrics, ∀ v,
        lookupA fields p.1 = some v →
        ∃ q, updateGauge (promInit ci FIELDS FIELDS_MODEL).postprocess fields idv p =
          .ok q := by
      intro p hp v hv
      have hmemk : p.1 ∈ FIELDS.map Field.json_key := by
        rw [← show (promInit ci FIELDS FIELDS_MODEL).metrics.map Prod.fst =
          FIELDS.map Field.json_key from rfl]
        exact List.mem_map_of_mem Prod.fst hp
      have hnv : isNumeric v = true := by
        have h := hnum p.1 hmemk
        rw [hv] at h
        simpa [Option.all] using h
      have hraw : ∃ raw,
          ppApply (promInit ci FIELDS FIELDS_MODEL).postprocess fields p.1 = .ok raw ∧
          isNumeric raw = true := by
        unfold ppApply
        cases hppc : lookupA (promInit ci FIELDS FIELDS_MODEL).postprocess p.1 with
        | none => exact ⟨v, by simp [getItem, hv], hnv⟩
        | some f =>
            have hf : f = div_by_1000 := hppf p.1 f (by
              rw [← show (promInit ci FIELDS FIELDS_MODEL).postprocess =
                [("battery_mV", div_by_1000), ("rain_mm", div_by_1000)] from rfl]
              exact hppc)
            subst hf
            cases v with
            | sint n =>
                exact ⟨.sfloat ((n : ℚ) / 1000),
                  by simp [getItem, hv, div_by_1000, except_bind_ok], rfl⟩
            | sfloat q =>
                exact ⟨.sfloat (q / 1000),
                  by simp [getItem, hv, div_by_1000, except_bind_ok], rfl⟩
            | snull => simp [isNumeric] at hnv
            | sbool b => simp [isNumeric] at hnv
            | sstr s => simp [isNumeric] at hnv
      obtain ⟨raw, hra, hrnum⟩ := hraw
      unfold updateGauge
      rw [hra, except_bind_ok]
      cases raw with
      | sint n =>
          exact ⟨_, by
            rw [show pyFloat (.sint n) = .ok ((n : Int) : ℚ) from rfl, except_bind_ok]⟩
      | sfloat q =>
          exact ⟨_, by
            rw [show pyFloat (.sfloat q) = .ok q from rfl, except_bind_ok]⟩
      | snull => simp [isNumeric] at hrnum
      | sbool b => simp [isNumeric] at hrnum
      | sstr s => simp [isNumeric] at hrnum
    have hkg : ∃ p ∈ (promInit ci FIELDS FIELDS_MODEL).metrics,
        lookupA fields p.1 = none := by
      obtain ⟨k0, hk0, hnone0⟩ := hmiss
      unfold requiredKeys at hk0
      rcases List.mem_append.mp hk0 with hmem | hmem
      · have hk0' : k0 ∈ (promInit ci FIELDS FIELDS_MODEL).metrics.map Prod.fst := by
          rw [show (promInit ci FIELDS FIELDS_MODEL).metrics.map Prod.fst =
            FIELDS.map Field.json_key from rfl]
          exact hmem
        obtain ⟨p, hp, hpk⟩ := List.mem_map.mp hk0'
        exact ⟨p, hp, by rw [hpk]; exact hnone0⟩
      · rcases (by simpa using hmem : k0 = "firmware" ∨ k0 = "model") with h | h
        · subst h
          exact absurd hnone0 hfw
        · subst h
          exact absurd hnone0 hmo
    obtain ⟨k, hkmem, hknone, herr⟩ := gauge_loop_error_of_missing
      (promInit ci FIELDS FIELDS_MODEL).postprocess fields idv
      (promInit ci FIELDS FIELDS_MODEL).metrics hsucc hkg
    refine ⟨k, ?_, hknone, ?_⟩
    · unfold requiredKeys
      refine List.mem_append_left _ ?_
      rw [← show (promInit ci FIELDS FIELDS_MODEL).metrics.map Prod.fst =
        FIELDS.map Field.json_key from rfl]
      exact hkmem
    · exact promDataCallback_gauge_error _ fields idv _ _ hid hinfoOk herr

/-- The sample reading with its `humidity` field removed. -/
def missingHumidityFields : List (String × JScalar) := [
  ("time", .sstr "2024-01-01 00:00:00"),
  ("model", .sstr "Fineoffset-WS90"),
  ("id", .sint 100),
  ("battery_mV", .sint 2800),
  ("battery_ok", .sfloat (9 / 10)),
  ("temperature_C", .sfloat (43 / 2)),
  ("wind_dir_deg", .sint 180),
  ("wind_avg_m_s", .sfloat 3),
  ("wind_max_m_s", .sfloat 5),
  ("uvi", .sint 4),
  ("light_lux", .sfloat 120),
  ("rain_mm", .sfloat 30),
  ("rain_start", .sint 1),
  ("supercap_V", .sfloat (3 / 2)),
  ("firmware", .sstr "126")]

/-- Witness for C10: a reading lacking `humidity` makes the callback raise
`KeyError` for a missing declared key. -/
theorem declared_keys_are_required_witness :
    ∃ k ∈ requiredKeys, lookupA missingHumidityFields k = none ∧
      promDataCallback (promInit 120 FIELDS FIELDS_MODEL)
        (.jobj missingHumidityFields) = .error (.keyError k) :=
  declared_keys_are_required 120 missingHumidityFields (.sint 100)
    (by decide) (by decide) (by decide) (by decide)

/-- Witness for C9: the decoded value `42` kills the loop; a decode failure
is caught. -/
theorem non_object_line_escapes_reader_witness :
    read_stdout [] (.ok (.scalar (.sint 42))) = .error (.attributeError "get") ∧
    read_stdout [] (.error .jsonDecodeError) = .ok none :=
  ⟨(non_object_line_escapes_reader [] (.scalar (.sint 42))
      (fun _ h => JValue.noConfusion h)).1,
   (non_object_line_escapes_reader [] (.scalar (.sint 42))
      (fun _ h => JValue.noConfusion h)).2 .jsonDecodeError⟩

end WS90
